import Mathlib

/-!
Shallow embedding of the `xliff` Go package (XLIFF 1.2 document model,
validator, codec and mutators) together with proofs of the specification
claims.  Each definition mirrors one declaration of `xliff.go`; Go slices
become `List`, Go strings become `String`, the platform `int` becomes `Int`
with explicit two's-complement wrapping at 64 bits, and code that can fail
(slice indexing that may panic, operations returning `error`) returns
`Option`/an explicit error value.
-/

set_option linter.unusedVariables false

namespace Xliff

/-- Mirrors Go `type Tool struct` (attributes `tool-id`, `tool-name`,
`tool-version`, `build-num`). -/
structure Tool where
  toolID : String
  toolName : String
  toolVersion : String
  buildNum : String
deriving DecidableEq

/-- Mirrors Go `type Header struct { Tool Tool }`. -/
structure Header where
  tool : Tool
deriving DecidableEq

/-- Mirrors Go `type TransUnit struct` (attribute `id`, child elements
`source`, `target`, `note`). -/
structure TransUnit where
  id : String
  source : String
  target : String
  note : String
deriving DecidableEq

/-- Mirrors Go `type Body struct { TransUnits []TransUnit }`. -/
structure Body where
  transUnits : List TransUnit
deriving DecidableEq

/-- Mirrors Go `type File struct` with its attributes in declaration order
(`original`, `source-language`, `datatype`, `target-language`) and the
`header` and `body` children. -/
structure File where
  original : String
  sourceLanguage : String
  datatype : String
  targetLanguage : String
  header : Header
  body : Body
deriving DecidableEq

/-- Mirrors Go `type Document struct { Version string; Files []File }`. -/
structure Document where
  version : String
  files : List File
deriving DecidableEq

/-- The zero value of the Go `File` struct: every string empty, empty
header and body.  `Document.file` returns it when no file matches. -/
def File.zero : File :=
  { original := "", sourceLanguage := "", datatype := "", targetLanguage := ""
    header := { tool := { toolID := "", toolName := "", toolVersion := "", buildNum := "" } }
    body := { transUnits := [] } }

/-- Mirrors Go `NewDocument(sl, tl string) *Document`. -/
def newDocument (sl : String) (tl : String) : Document :=
  { version := "1.2"
    files := [{ original := ""
                sourceLanguage := sl
                datatype := "plaintext"
                targetLanguage := tl
                header := { tool := { toolID := "", toolName := "", toolVersion := "", buildNum := "" } }
                body := { transUnits := [] } }] }

/-- Mirrors Go `type ValidationErrorCode int`. -/
abbrev ValidationErrorCode := Int

/-- Go const `UnsupportedVersion ValidationErrorCode = iota` (value 0). -/
def UnsupportedVersion : ValidationErrorCode := 0

/-- Go const `MissingOriginalAttribute` (value 1). -/
def MissingOriginalAttribute : ValidationErrorCode := 1

/-- Go const `MissingSourceLanguage` (value 2). -/
def MissingSourceLanguage : ValidationErrorCode := 2

/-- Go const `MissingTargetLanguage` (value 3). -/
def MissingTargetLanguage : ValidationErrorCode := 3

/-- Go const `UnsupportedDatatype` (value 4). -/
def UnsupportedDatatype : ValidationErrorCode := 4

/-- Go const `InconsistentSourceLanguage` (value 5). -/
def InconsistentSourceLanguage : ValidationErrorCode := 5

/-- Go const `InconsistentTargetLanguage` (value 6). -/
def InconsistentTargetLanguage : ValidationErrorCode := 6

/-- Go const `MissingTransUnitID` (value 7). -/
def MissingTransUnitID : ValidationErrorCode := 7

/-- Go const `MissingTransUnitSource` (value 8). -/
def MissingTransUnitSource : ValidationErrorCode := 8

/-- Go const `MissingTransUnitTarget` (value 9). -/
def MissingTransUnitTarget : ValidationErrorCode := 9

/-- Mirrors Go `type ValidationError struct { Code; Message }`. -/
structure ValidationError where
  code : ValidationErrorCode
  message : String
deriving DecidableEq

/-- The `UnsupportedVersion` finding built in `Document.Validate`
(`fmt.Sprintf("Version %s is not supported", d.Version)`). -/
def unsupportedVersionErr (v : String) : ValidationError :=
  { code := UnsupportedVersion, message := "Version " ++ v ++ " is not supported" }

/-- The `MissingOriginalAttribute` finding
(`"File #%d is missing 'original' attribute"`). -/
def missingOriginalErr (idx : Nat) : ValidationError :=
  { code := MissingOriginalAttribute
    message := "File #" ++ Nat.repr idx ++ " is missing \x27original\x27 attribute" }

/-- The `MissingSourceLanguage` finding
(`"File '%s' is missing 'source-language' attribute"`). -/
def missingSourceLanguageErr (orig : String) : ValidationError :=
  { code := MissingSourceLanguage
    message := "File \x27" ++ orig ++ "\x27 is missing \x27source-language\x27 attribute" }

/-- The `MissingTargetLanguage` finding
(`"File '%s' is missing 'target-language' attribute"`). -/
def missingTargetLanguageErr (orig : String) : ValidationError :=
  { code := MissingTargetLanguage
    message := "File \x27" ++ orig ++ "\x27 is missing \x27target-language\x27 attribute" }

/-- The `UnsupportedDatatype` finding
(`"File '%s' has unsupported 'datatype' attribute with value '%s'"`). -/
def unsupportedDatatypeErr (orig : String) (dt : String) : ValidationError :=
  { code := UnsupportedDatatype
    message := "File \x27" ++ orig ++ "\x27 has unsupported \x27datatype\x27 attribute with value \x27" ++ dt ++ "\x27" }

/-- The `InconsistentSourceLanguage` finding
(`"File '%s' has inconsistent 'source-language' attribute '%s'"`). -/
def inconsistentSourceLanguageErr (orig : String) (sl : String) : ValidationError :=
  { code := InconsistentSourceLanguage
    message := "File \x27" ++ orig ++ "\x27 has inconsistent \x27source-language\x27 attribute \x27" ++ sl ++ "\x27" }

/-- The `InconsistentTargetLanguage` finding
(`"File '%s' has inconsistent 'target-language' attribute '%s'"`). -/
def inconsistentTargetLanguageErr (orig : String) (tl : String) : ValidationError :=
  { code := InconsistentTargetLanguage
    message := "File \x27" ++ orig ++ "\x27 has inconsistent \x27target-language\x27 attribute \x27" ++ tl ++ "\x27" }

/-- The `MissingTransUnitID` finding
(`"Translation unit #%d in file '%s' is missing 'id' attribute"`). -/
def missingTransUnitIDErr (idx : Nat) (orig : String) : ValidationError :=
  { code := MissingTransUnitID
    message := "Translation unit #" ++ Nat.repr idx ++ " in file \x27" ++ orig ++ "\x27 is missing \x27id\x27 attribute" }

/-- The `MissingTransUnitSource` finding
(`"Translation unit '%s' in file '%s' is missing 'source' attribute"`). -/
def missingTransUnitSourceErr (tuid : String) (orig : String) : ValidationError :=
  { code := MissingTransUnitSource
    message := "Translation unit \x27" ++ tuid ++ "\x27 in file \x27" ++ orig ++ "\x27 is missing \x27source\x27 attribute" }

/-- The `MissingTransUnitTarget` finding
(`"Translation unit '%s' in file '%s' is missing 'target' attribute"`). -/
def missingTransUnitTargetErr (tuid : String) (orig : String) : ValidationError :=
  { code := MissingTransUnitTarget
    message := "Translation unit \x27" ++ tuid ++ "\x27 in file \x27" ++ orig ++ "\x27 is missing \x27target\x27 attribute" }

/-- Body of the first loop of `Document.Validate` (`for idx, file := range
d.Files`): four sequential `if`s appending to the accumulated `errors`
slice.  The pair carries the loop index and the file. -/
def fileAttrStep (acc : List ValidationError) (p : Nat × File) : List ValidationError :=
  let acc1 := if p.2.original = "" then acc ++ [missingOriginalErr p.1] else acc
  let acc2 := if p.2.sourceLanguage = "" then acc1 ++ [missingSourceLanguageErr p.2.original] else acc1
  let acc3 := if p.2.targetLanguage = "" then acc2 ++ [missingTargetLanguageErr p.2.original] else acc2
  if p.2.datatype ≠ "plaintext" then acc3 ++ [unsupportedDatatypeErr p.2.original p.2.datatype] else acc3

/-- Body of the second loop of `Document.Validate`: the cross-file
language-consistency checks against the canonical pair read from
`d.Files[0]`. -/
def consistencyStep (sl : String) (tl : String) (acc : List ValidationError) (f : File) :
    List ValidationError :=
  let acc1 := if f.sourceLanguage ≠ sl then acc ++ [inconsistentSourceLanguageErr f.original f.sourceLanguage] else acc
  if f.targetLanguage ≠ tl then acc1 ++ [inconsistentTargetLanguageErr f.original f.targetLanguage] else acc1

/-- Body of the inner loop of the third loop of `Document.Validate`
(`for idx, transUnit := range file.Body.TransUnits`). -/
def transUnitStep (orig : String) (acc : List ValidationError) (p : Nat × TransUnit) :
    List ValidationError :=
  let acc1 := if p.2.id = "" then acc ++ [missingTransUnitIDErr p.1 orig] else acc
  let acc2 := if p.2.source = "" then acc1 ++ [missingTransUnitSourceErr p.2.id orig] else acc1
  if p.2.target = "" then acc2 ++ [missingTransUnitTargetErr p.2.id orig] else acc2

/-- Body of the outer third loop of `Document.Validate`: run the
per-trans-unit checks of one file over the accumulated errors. -/
def fileTransUnitsStep (acc : List ValidationError) (f : File) : List ValidationError :=
  f.body.transUnits.enum.foldl (transUnitStep f.original) acc

/-- Mirrors Go `func (d *Document) Validate() []ValidationError`.  The Go
code reads `d.Files[0]` unconditionally between the second and third check
group; on a document with zero files that indexing panics, which the
embedding renders as `none`. -/
def Document.validate (d : Document) : Option (List ValidationError) :=
  let errs0 : List ValidationError :=
    if d.version ≠ "1.2" then [unsupportedVersionErr d.version] else []
  let errs1 := d.files.enum.foldl fileAttrStep errs0
  match d.files with
  | [] => none
  | f0 :: _ =>
    let errs2 := d.files.foldl (consistencyStep f0.sourceLanguage f0.targetLanguage) errs1
    let errs3 := d.files.foldl fileTransUnitsStep errs2
    some errs3

/-- The violations of the per-file attribute checks for one file, written
as the concatenation of the four independent checks (spec section 4.3,
step 2). -/
def fileAttrViolations (p : Nat × File) : List ValidationError :=
  (if p.2.original = "" then [missingOriginalErr p.1] else []) ++
  (if p.2.sourceLanguage = "" then [missingSourceLanguageErr p.2.original] else []) ++
  (if p.2.targetLanguage = "" then [missingTargetLanguageErr p.2.original] else []) ++
  (if p.2.datatype ≠ "plaintext" then [unsupportedDatatypeErr p.2.original p.2.datatype] else [])

/-- The violations of the cross-file language-consistency checks for one
file against the canonical pair (spec section 4.3, step 3). -/
def consistencyViolations (sl : String) (tl : String) (f : File) : List ValidationError :=
  (if f.sourceLanguage ≠ sl then [inconsistentSourceLanguageErr f.original f.sourceLanguage] else []) ++
  (if f.targetLanguage ≠ tl then [inconsistentTargetLanguageErr f.original f.targetLanguage] else [])

/-- The violations of the per-trans-unit checks for one trans-unit (spec
section 4.3, step 4). -/
def transUnitViolations (orig : String) (p : Nat × TransUnit) : List ValidationError :=
  (if p.2.id = "" then [missingTransUnitIDErr p.1 orig] else []) ++
  (if p.2.source = "" then [missingTransUnitSourceErr p.2.id orig] else []) ++
  (if p.2.target = "" then [missingTransUnitTargetErr p.2.id orig] else [])

/-- All per-trans-unit violations of one file, in trans-unit order. -/
def fileTransUnitViolations (f : File) : List ValidationError :=
  f.body.transUnits.enum.flatMap (transUnitViolations f.original)

/-- The fixed check battery of the spec (section 4.3): the version check,
then the per-file attribute checks in file order, then the cross-file
language-consistency checks against the first file, then the
per-trans-unit checks in file-then-trans-unit order, concatenated in that
order. -/
def checkBattery (d : Document) : List ValidationError :=
  (if d.version ≠ "1.2" then [unsupportedVersionErr d.version] else []) ++
  d.files.enum.flatMap fileAttrViolations ++
  (match d.files with
   | [] => []
   | f0 :: _ => d.files.flatMap (consistencyViolations f0.sourceLanguage f0.targetLanguage)) ++
  d.files.flatMap fileTransUnitViolations

/-- Mirrors Go `func (d *Document) IsComplete() bool`: the nested loops
with an early `return false` become nested `List.all`. -/
def Document.isComplete (d : Document) : Bool :=
  d.files.all fun f =>
    f.body.transUnits.all fun tu => !(tu.source == "" || tu.target == "")

/-- Mirrors the loop of Go `func (d *Document) File(original string)
(File, bool)`. -/
def findFileAux (original : String) : List File → File × Bool
  | [] => (File.zero, false)
  | f :: rest => if f.original = original then (f, true) else findFileAux original rest

/-- Mirrors Go `func (d *Document) File(original string) (File, bool)`. -/
def Document.file (d : Document) (original : String) : File × Bool :=
  findFileAux original d.files

/-- Numeric value of an ASCII digit character, as Go computes it when
parsing decimal digits. -/
def digitVal (c : Char) : Nat := c.toNat - 48

/-- Model of Go `strconv.ParseUint(s, 10, 64)` on an already
sign-stripped list of characters: the digits must be non-empty and all in
`0..9`, and the accumulated value is returned unbounded (the 64-bit range
check of `strconv` is applied by `atoi` below, which is equivalent to
strconv's incremental cutoff check for base 10). -/
def parseDigits (cs : List Char) : Option Nat :=
  if cs.isEmpty then none
  else if cs.all Char.isDigit then
    some (cs.foldl (fun a c => 10 * a + digitVal c) 0)
  else none

/-- Model of Go `strconv.Atoi` on a 64-bit platform: optional leading
`+` or `-` sign, then a non-empty run of decimal digits, with the result
required to fit in a signed 64-bit integer (`ErrRange` otherwise); any
failure is `none`. -/
def atoi (s : String) : Option Int :=
  match s.data with
  | [] => none
  | c :: cs =>
    if c = '-' then
      match parseDigits cs with
      | some un => if un ≤ 2 ^ 63 then some (-(un : Int)) else none
      | none => none
    else if c = '+' then
      match parseDigits cs with
      | some un => if un ≤ 2 ^ 63 - 1 then some ((un : Int)) else none
      | none => none
    else
      match parseDigits (c :: cs) with
      | some un => if un ≤ 2 ^ 63 - 1 then some ((un : Int)) else none
      | none => none

/-- Decimal digit characters of a natural number, most significant first.
The first argument is fuel; `fuel = n` always suffices because the
number of decimal digits of `n` is at most `n`. -/
def toDecimalAux : Nat → Nat → List Char
  | 0, _ => []
  | fuel + 1, n => if n = 0 then [] else toDecimalAux fuel (n / 10) ++ [Char.ofNat (48 + n % 10)]

/-- Decimal rendering of a natural number. -/
def toDecimal (n : Nat) : String :=
  if n = 0 then "0" else String.mk (toDecimalAux n n)

/-- Model of Go `strconv.Itoa`: decimal rendering of an integer, with a
leading minus sign for negative values. -/
def itoa (n : Int) : String :=
  if n < 0 then "-" ++ toDecimal n.natAbs else toDecimal n.toNat

/-- Two's-complement wrapping of an unbounded integer into the signed
64-bit range, modelling overflow of Go's `int` addition on a 64-bit
platform. -/
def wrap64 (n : Int) : Int := (n + 2 ^ 63) % 2 ^ 64 - 2 ^ 63

/-- Mirrors Go `func (d *Document) lastId() (string, bool)`: `none` for
the `("", false)` return on a document with zero files, `some` for the
`(_, true)` returns (sentinel `"-1"` when the last file's body is
empty, otherwise the id of its last trans-unit). -/
def Document.lastId (d : Document) : Option String :=
  match d.files.getLast? with
  | none => none
  | some f =>
    match f.body.transUnits.getLast? with
    | none => some "-1"
    | some last => some last.id

/-- The three `errors.New` failure results of Go
`func (d *Document) AddTransUnit`. -/
inductive AddError where
  | noFilesError
  | couldNotParseLastID
  | lastIDNotNumberError
deriving DecidableEq

/-- Mirrors Go `func WithNote(note string) func(*TransUnit)`. -/
def WithNote (note : String) : TransUnit → TransUnit :=
  fun t => { t with note := note }

/-- Mirrors Go `func WithTarget(target string) func(*TransUnit)`. -/
def WithTarget (target : String) : TransUnit → TransUnit :=
  fun t => { t with target := target }

/-- Replace the last element of a list by its image under `g`; models the
in-place mutation `file := &d.Files[len(d.Files)-1]` followed by the
append into `file.Body.TransUnits`. -/
def updateLast (g : α → α) : List α → List α
  | [] => []
  | [a] => [g a]
  | a :: b :: rest => a :: updateLast g (b :: rest)

/-- Mirrors Go `func (d *Document) AddTransUnit(source string, opts
...func(*TransUnit)) error`.  The method mutates the receiver in place, so
the embedding returns the error slot together with the resulting
document; every error return leaves the document untouched because the Go
code appends only after all checks passed. -/
def Document.addTransUnit (d : Document) (source : String)
    (opts : List (TransUnit → TransUnit)) : Option AddError × Document :=
  if d.files.length = 0 then (some AddError.noFilesError, d)
  else
    match d.lastId with
    | none => (some AddError.couldNotParseLastID, d)
    | some lid =>
      match atoi lid with
      | none => (some AddError.lastIDNotNumberError, d)
      | some numId =>
        let tu0 : TransUnit :=
          { id := itoa (wrap64 (numId + 1)), source := source, target := "", note := "" }
        let tu := opts.foldl (fun t opt => opt t) tu0
        (none, { d with
          files := updateLast
            (fun f => { f with body := { transUnits := f.body.transUnits ++ [tu] } })
            d.files })

/-- Mirrors Go `func (ve ValidationError) Error() string`: the `switch`
on the code (with default `"Unknown"`) followed by
`fmt.Sprintf("%s: %s", code, ve.Message)`. -/
def ValidationError.Error (ve : ValidationError) : String :=
  (if ve.code = UnsupportedVersion then "UnsupportedVersion"
   else if ve.code = MissingOriginalAttribute then "MissingOriginalAttribute"
   else if ve.code = MissingSourceLanguage then "MissingSourceLanguage"
   else if ve.code = MissingTargetLanguage then "MissingTargetLanguage"
   else if ve.code = UnsupportedDatatype then "UnsupportedDatatype"
   else if ve.code = InconsistentSourceLanguage then "InconsistentSourceLanguage"
   else if ve.code = InconsistentTargetLanguage then "InconsistentTargetLanguage"
   else if ve.code = MissingTransUnitID then "MissingTransUnitID"
   else if ve.code = MissingTransUnitSource then "MissingTransUnitSource"
   else if ve.code = MissingTransUnitTarget then "MissingTransUnitTarget"
   else "Unknown") ++ ": " ++ ve.message

/-- A well-formed XML tree: an element with a name, attributes in
document order, and children in document order, or character data.  This
is the output of Go's XML tokenizer on well-formed input; the byte-level
tokenizer itself belongs to `encoding/xml`, outside this repository. -/
inductive Xml where
  | elem (name : String) (attrs : List (String × String)) (children : List Xml)
  | text (s : String)

/-- Go unmarshal semantics for one attribute-backed string field: scan
the attributes in order and let the last one whose name matches win,
keeping `init` (the zero value, or the previously decoded value) when
none matches. -/
def attrFold (attrs : List (String × String)) (name : String) (init : String) : String :=
  attrs.foldl (fun acc kv => if kv.1 = name then kv.2 else acc) init

/-- Go unmarshal semantics for a string field backed by an element: the
concatenation of the element's own character data, skipping child
elements. -/
def textContent (children : List Xml) : String :=
  children.foldl
    (fun acc c => match c with | Xml.text s => acc ++ s | Xml.elem _ _ _ => acc) ""

/-- Unmarshal one `tool` element into a `Tool` (struct tags of Go `type
Tool`): each attribute present overwrites the corresponding field. -/
def decodeTool (t : Tool) (attrs : List (String × String)) : Tool :=
  { toolID := attrFold attrs "tool-id" t.toolID
    toolName := attrFold attrs "tool-name" t.toolName
    toolVersion := attrFold attrs "tool-version" t.toolVersion
    buildNum := attrFold attrs "build-num" t.buildNum }

/-- One unmarshal step for a child of a `header` element: a `tool` child
updates the tool, everything else is ignored. -/
def headerChildStep (tool : Tool) (c : Xml) : Tool :=
  match c with
  | Xml.elem n attrs _ => if n = "tool" then decodeTool tool attrs else tool
  | Xml.text _ => tool

/-- Unmarshal the children of a `header` element into a `Header` (struct
tags of Go `type Header`): every `tool` child updates the tool field in
order. -/
def decodeHeader (h : Header) (children : List Xml) : Header :=
  { tool := children.foldl headerChildStep h.tool }

/-- One unmarshal step for a child of a `trans-unit` element: `source`,
`target` and `note` children overwrite the matching field with their text
content, everything else is ignored. -/
def transUnitChildStep (tu : TransUnit) (c : Xml) : TransUnit :=
  match c with
  | Xml.elem n _ cs =>
    if n = "source" then { tu with source := textContent cs }
    else if n = "target" then { tu with target := textContent cs }
    else if n = "note" then { tu with note := textContent cs }
    else tu
  | Xml.text _ => tu

/-- Unmarshal one `trans-unit` element into a `TransUnit` (struct tags of
Go `type TransUnit`): the `id` attribute, then the children in order. -/
def decodeTransUnit (attrs : List (String × String)) (children : List Xml) : TransUnit :=
  let tu0 : TransUnit := { id := attrFold attrs "id" "", source := "", target := "", note := "" }
  children.foldl transUnitChildStep tu0

/-- One unmarshal step for a child of a `body` element: every
`trans-unit` child appends one decoded `TransUnit` to the slice. -/
def bodyChildStep (tus : List TransUnit) (c : Xml) : List TransUnit :=
  match c with
  | Xml.elem n attrs cs => if n = "trans-unit" then tus ++ [decodeTransUnit attrs cs] else tus
  | Xml.text _ => tus

/-- Unmarshal the children of a `body` element into a `Body` (struct tags
of Go `type Body`). -/
def decodeBody (b : Body) (children : List Xml) : Body :=
  { transUnits := children.foldl bodyChildStep b.transUnits }

/-- One unmarshal step for a child of a `file` element: `header` and
`body` children update the corresponding fields, everything else is
ignored. -/
def fileChildStep (f : File) (c : Xml) : File :=
  match c with
  | Xml.elem n cattrs cs =>
    if n = "header" then { f with header := decodeHeader f.header cs }
    else if n = "body" then { f with body := decodeBody f.body cs }
    else f
  | Xml.text _ => f

/-- Unmarshal one `file` element into a `File` (struct tags of Go `type
File`): the four attributes, then the `header` and `body` children merged
in document order; unknown children and attributes are ignored. -/
def decodeFile (attrs : List (String × String)) (children : List Xml) : File :=
  let f0 : File :=
    { original := attrFold attrs "original" ""
      sourceLanguage := attrFold attrs "source-language" ""
      datatype := attrFold attrs "datatype" ""
      targetLanguage := attrFold attrs "target-language" ""
      header := { tool := { toolID := "", toolName := "", toolVersion := "", buildNum := "" } }
      body := { transUnits := [] } }
  children.foldl fileChildStep f0

/-- One unmarshal step for a child of the root element: every `file`
child appends one decoded `File`. -/
def documentChildStep (d : Document) (c : Xml) : Document :=
  match c with
  | Xml.elem n fattrs fcs =>
    if n = "file" then { d with files := d.files ++ [decodeFile fattrs fcs] } else d
  | Xml.text _ => d

/-- Model of `xml.Unmarshal(data, &document)` as called by `FromFile`,
applied to the root element of the parsed input: the `version` attribute
and the `file` children are read (struct tags of Go `type Document`);
every other attribute — including the `xmlns`, `xmlns:xsi` and
`xsi:schemaLocation` wrapper attributes written by `ToFile` — is ignored.
A non-element (bare character data has no root element) is a decode
failure. -/
def decodeDocument (x : Xml) : Option Document :=
  match x with
  | Xml.elem _ attrs children =>
    some (children.foldl documentChildStep
      { version := attrFold attrs "version" "", files := [] })
  | Xml.text _ => none

/-- Marshal a `Tool` (attribute order `tool-id`, `tool-name`,
`tool-version`, `build-num`). -/
def encodeTool (t : Tool) : Xml :=
  Xml.elem "tool"
    [("tool-id", t.toolID), ("tool-name", t.toolName),
     ("tool-version", t.toolVersion), ("build-num", t.buildNum)] []

/-- Marshal a `Header`. -/
def encodeHeader (h : Header) : Xml :=
  Xml.elem "header" [] [encodeTool h.tool]

/-- Marshal a `TransUnit`: the `id` attribute and the `source`, `target`,
`note` children in struct order, each holding its text. -/
def encodeTransUnit (tu : TransUnit) : Xml :=
  Xml.elem "trans-unit" [("id", tu.id)]
    [Xml.elem "source" [] [Xml.text tu.source],
     Xml.elem "target" [] [Xml.text tu.target],
     Xml.elem "note" [] [Xml.text tu.note]]

/-- Marshal a `Body`. -/
def encodeBody (b : Body) : Xml :=
  Xml.elem "body" [] (b.transUnits.map encodeTransUnit)

/-- Marshal a `File` (attribute order `original`, `source-language`,
`datatype`, `target-language`, then the `header` and `body` children). -/
def encodeFile (f : File) : Xml :=
  Xml.elem "file"
    [("original", f.original), ("source-language", f.sourceLanguage),
     ("datatype", f.datatype), ("target-language", f.targetLanguage)]
    [encodeHeader f.header, encodeBody f.body]

/-- Model of `xml.Marshal(xliff)` as called by `ToFile`: the
`DocumentExport` wrapper yields root element `xliff` carrying the
embedded document's `version` attribute followed by the three fixed
namespace/schema attributes, with one `file` child per file.  The XML
declaration prepended by `ToFile` (`xml.Header`) is part of the byte
serialization, not of the element tree. -/
def Document.encodeXml (d : Document) : Xml :=
  Xml.elem "xliff"
    [("version", d.version),
     ("xmlns", "urn:oasis:names:tc:xliff:document:1.2"),
     ("xmlns:xsi", "http://www.w3.org/2001/XMLSchema-instance"),
     ("xsi:schemaLocation", "urn:oasis:names:tc:xliff:document:1.2 http://docs.oasis-open.org/xliff/v1.2/os/xliff-core-1.2-strict.xsd")]
    (d.files.map encodeFile)

/-- The concrete document used to exhibit the auto-increment overflow:
its single file's last trans-unit id is the decimal rendering of
`2 ^ 63 - 1`, the largest signed 64-bit integer. -/
def bigDoc : Document :=
  { version := "1.2"
    files := [{ File.zero with
      body := { transUnits :=
        [{ id := "9223372036854775807", source := "s", target := "t", note := "" }] } }] }

/-- A concrete document whose single file's last trans-unit has the
non-numeric id `"abc"` (the spec's own example of an id that breaks the
auto-increment). -/
def abcDoc : Document :=
  { version := "1.2"
    files := [{ File.zero with
      body := { transUnits := [{ id := "abc", source := "s", target := "t", note := "" }] } }] }

section Proofs

/-- A left fold whose step appends a block per element is the initial
accumulator followed by the concatenation of the blocks. -/
theorem foldl_append_of_step {α β : Type} (g : α → List β) (step : List β → α → List β)
    (hstep : ∀ acc x, step acc x = acc ++ g x) :
    ∀ (l : List α) (init : List β), List.foldl step init l = init ++ l.flatMap g := by
  intro l
  induction l with
  | nil => intro init; simp
  | cons a as ih =>
    intro init
    rw [List.foldl_cons, hstep, List.flatMap_cons, ih, List.append_assoc]

theorem fileAttrStep_eq (acc : List ValidationError) (p : Nat × File) :
    fileAttrStep acc p = acc ++ fileAttrViolations p := by
  unfold fileAttrStep fileAttrViolations
  by_cases h1 : p.2.original = "" <;> by_cases h2 : p.2.sourceLanguage = "" <;>
    by_cases h3 : p.2.targetLanguage = "" <;> by_cases h4 : p.2.datatype = "plaintext" <;>
    simp [h1, h2, h3, h4]

theorem consistencyStep_eq (sl tl : String) (acc : List ValidationError) (f : File) :
    consistencyStep sl tl acc f = acc ++ consistencyViolations sl tl f := by
  unfold consistencyStep consistencyViolations
  by_cases h1 : f.sourceLanguage = sl <;> by_cases h2 : f.targetLanguage = tl <;>
    simp [h1, h2]

theorem transUnitStep_eq (orig : String) (acc : List ValidationError) (p : Nat × TransUnit) :
    transUnitStep orig acc p = acc ++ transUnitViolations orig p := by
  unfold transUnitStep transUnitViolations
  by_cases h1 : p.2.id = "" <;> by_cases h2 : p.2.source = "" <;>
    by_cases h3 : p.2.target = "" <;> simp [h1, h2, h3]

theorem fileTransUnitsStep_eq (acc : List ValidationError) (f : File) :
    fileTransUnitsStep acc f = acc ++ fileTransUnitViolations f := by
  unfold fileTransUnitsStep fileTransUnitViolations
  exact foldl_append_of_step (transUnitViolations f.original) (transUnitStep f.original)
    (transUnitStep_eq f.original) f.body.transUnits.enum acc

set_option maxHeartbeats 1000000 in
/-- On a document with at least one file, `Validate` returns exactly the
concatenated check battery of the spec. -/
theorem validate_eq_checkBattery (d : Document) (h : d.files ≠ []) :
    d.validate = some (checkBattery d) := by
  obtain ⟨f0, rest, hd⟩ : ∃ f0 rest, d.files = f0 :: rest := by
    cases hf : d.files with
    | nil => exact absurd hf h
    | cons f0 rest => exact ⟨f0, rest, rfl⟩
  unfold Document.validate checkBattery
  rw [hd]
  dsimp only
  rw [foldl_append_of_step fileAttrViolations fileAttrStep fileAttrStep_eq,
    foldl_append_of_step (consistencyViolations f0.sourceLanguage f0.targetLanguage)
      (consistencyStep f0.sourceLanguage f0.targetLanguage)
      (consistencyStep_eq f0.sourceLanguage f0.targetLanguage),
    foldl_append_of_step fileTransUnitViolations fileTransUnitsStep fileTransUnitsStep_eq]

/-- C1: amended — for every Document **with at least one File**, Validate
returns exactly the violations of the fixed check battery, concatenated in
check order: version check, then per-File attribute checks in File order,
then cross-File language-consistency checks against File[0], then
per-TransUnit checks in File-then-TransUnit order; it collects every
violation and returns the empty list when there are none (mutation-freedom
is inherent: `validate` is a pure function of the document). -/
theorem c1_validate_is_check_battery (d : Document) (h : d.files ≠ []) :
    d.validate = some (checkBattery d) :=
  validate_eq_checkBattery d h

/-- C1 witness: on a concrete two-file document with violations the
battery equality holds. -/
theorem c1_validate_is_check_battery_witness :
    Document.validate { version := "1.3", files := [File.zero, File.zero] } =
      some (checkBattery { version := "1.3", files := [File.zero, File.zero] }) :=
  c1_validate_is_check_battery { version := "1.3", files := [File.zero, File.zero] }
    (by simp)

/-- C1 counterexample: on the document with version "1.2" and zero files
the battery is empty, so the claim as stated demands the empty violation
list, but `Validate` dies on the out-of-range `d.Files[0]` access
(`none` in the embedding). -/
theorem c1_zero_files_counterexample :
    Document.validate { version := "1.2", files := [] } = none ∧
    checkBattery { version := "1.2", files := [] } = [] ∧
    Document.validate { version := "1.2", files := [] } ≠
      some (checkBattery { version := "1.2", files := [] }) := by
  exact ⟨rfl, rfl, fun hcontra => Option.noConfusion hcontra⟩

/-- C4: Validate reads `Files[0]` unconditionally, so it fails with an
out-of-range access (modelled as `none`) exactly on zero-file documents;
with at least one file every access is in range and a result list is
returned. -/
theorem c4_validate_index_safety (d : Document) :
    (d.files = [] → d.validate = none) ∧
    (d.files ≠ [] → ∃ errs, d.validate = some errs) := by
  constructor
  · intro h
    unfold Document.validate
    rw [h]
  · intro h
    exact ⟨checkBattery d, validate_eq_checkBattery d h⟩

/-- C4 witness: the zero-file document fails, the one-file document
returns a list. -/
theorem c4_validate_index_safety_witness :
    Document.validate { version := "1.2", files := [] } = none ∧
    ∃ errs, Document.validate { version := "1.2", files := [File.zero] } = some errs :=
  ⟨(c4_validate_index_safety { version := "1.2", files := [] }).1 rfl,
   (c4_validate_index_safety { version := "1.2", files := [File.zero] }).2 (by simp)⟩

/-- C8: `NewDocument sl tl` has version "1.2" and exactly one file, with
datatype "plaintext", the given language pair, and an empty body; the
constructor performs no validation (it is a pure constructor). -/
theorem c8_newDocument_shape (sl : String) (tl : String) :
    (newDocument sl tl).version = "1.2" ∧
    ∃ f, (newDocument sl tl).files = [f] ∧
      f.datatype = "plaintext" ∧ f.sourceLanguage = sl ∧ f.targetLanguage = tl ∧
      f.body.transUnits = [] :=
  ⟨rfl, _, rfl, rfl, rfl, rfl, rfl⟩

theorem findFileAux_eq (s : String) (l : List File) :
    findFileAux s l =
      match l.find? (fun f => f.original == s) with
      | some f => (f, true)
      | none => (File.zero, false) := by
  induction l with
  | nil => rfl
  | cons f rest ih =>
    by_cases h : f.original = s <;>
      simp [findFileAux, List.find?_cons, h, ih]

/-- C9: `Document.File` scans the files in order and returns the first
file whose `original` equals the query together with `true`; when no file
matches it returns the zero-valued file and `false` (the lookup is a pure
function of the document). -/
theorem c9_file_lookup (d : Document) (s : String) :
    (d.file s =
      match d.files.find? (fun f => f.original == s) with
      | some f => (f, true)
      | none => (File.zero, false)) ∧
    ((d.file s).2 = true ↔ ∃ f ∈ d.files, f.original = s) := by
  refine ⟨findFileAux_eq s d.files, ?_⟩
  rw [Document.file, findFileAux_eq s d.files]
  rcases hf : d.files.find? (fun f => f.original == s) with _ | f
  · rw [hf]
    constructor
    · intro hfalse
      simp at hfalse
    · intro ⟨f, hmem, horig⟩
      have := List.find?_eq_none.mp hf f hmem
      simp [horig] at this
  · rw [hf]
    constructor
    · intro _
      have hmem := List.mem_of_find?_eq_some hf
      have hp := List.find?_some hf
      exact ⟨f, hmem, by simpa using hp⟩
    · intro _
      rfl

/-- C6: `IsComplete` is true exactly when every trans-unit of every file
has a non-empty source and a non-empty target; documents with zero files,
or with only empty bodies, are vacuously complete. -/
theorem c6_isComplete_iff (d : Document) :
    (d.isComplete = true ↔
      ∀ f ∈ d.files, ∀ tu ∈ f.body.transUnits, tu.source ≠ "" ∧ tu.target ≠ "") ∧
    (d.files = [] → d.isComplete = true) ∧
    ((∀ f ∈ d.files, f.body.transUnits = []) → d.isComplete = true) := by
  have hmain : d.isComplete = true ↔
      ∀ f ∈ d.files, ∀ tu ∈ f.body.transUnits, tu.source ≠ "" ∧ tu.target ≠ "" := by
    simp [Document.isComplete, List.all_eq_true, not_or]
  refine ⟨hmain, ?_, ?_⟩
  · intro h
    rw [hmain, h]
    intro f hf
    cases hf
  · intro h
    rw [hmain]
    intro f hf tu htu
    rw [h f hf] at htu
    cases htu

/-- C6 witness: a document with one empty-bodied file is vacuously
complete. -/
theorem c6_isComplete_iff_witness :
    Document.isComplete { version := "1.2", files := [File.zero] } = true :=
  (c6_isComplete_iff { version := "1.2", files := [File.zero] }).2.2
    (by intro f hf; simp [File.zero] at hf; rw [hf])

/-- C10: validating a freshly constructed document always reports
`MissingOriginalAttribute` (the constructor leaves `original` empty), so a
fresh document is never validation-clean, although `AddTransUnit` on it
succeeds. -/
theorem c10_newDocument_never_clean (sl : String) (tl : String) :
    ∃ errs, (newDocument sl tl).validate = some errs ∧
      (∃ e ∈ errs, e.code = MissingOriginalAttribute) ∧
      errs ≠ [] ∧
      ∀ src opts, ((newDocument sl tl).addTransUnit src opts).1 = none := by
  refine ⟨checkBattery (newDocument sl tl),
    validate_eq_checkBattery (newDocument sl tl) (by simp [newDocument]), ?_, ?_, ?_⟩
  · refine ⟨missingOriginalErr 0, ?_, rfl⟩
    simp [checkBattery, newDocument, fileAttrViolations, List.enum]
  · intro hnil
    have : missingOriginalErr 0 ∈ checkBattery (newDocument sl tl) := by
      simp [checkBattery, newDocument, fileAttrViolations, List.enum]
    rw [hnil] at this
    cases this
  · intro src opts
    rfl

theorem digitChar_isDigit (d : Nat) (h : d < 10) : (Char.ofNat (48 + d)).isDigit = true := by
  interval_cases d <;> decide

theorem digitChar_val (d : Nat) (h : d < 10) : digitVal (Char.ofNat (48 + d)) = d := by
  interval_cases d <;> decide

theorem toDecimalAux_all_digits : ∀ fuel n, (toDecimalAux fuel n).all Char.isDigit = true := by
  intro fuel
  induction fuel with
  | zero => intro n; rfl
  | succ fuel ih =>
    intro n
    unfold toDecimalAux
    by_cases h : n = 0
    · rw [if_pos h]; rfl
    · rw [if_neg h, List.all_append, ih (n / 10)]
      simp [digitChar_isDigit (n % 10) (Nat.mod_lt _ (by norm_num))]

theorem toDecimalAux_foldl : ∀ fuel n, n ≤ fuel →
    (toDecimalAux fuel n).foldl (fun a c => 10 * a + digitVal c) 0 = n := by
  intro fuel
  induction fuel with
  | zero => intro n hn; interval_cases n; rfl
  | succ fuel ih =>
    intro n hn
    unfold toDecimalAux
    by_cases h : n = 0
    · rw [if_pos h]; exact h.symm
    · rw [if_neg h, List.foldl_append, ih (n / 10) ?_]
      · rw [List.foldl_cons, List.foldl_nil,
          digitChar_val (n % 10) (Nat.mod_lt _ (by norm_num))]
        omega
      · have hlt : n / 10 < n := Nat.div_lt_self (Nat.pos_of_ne_zero h) (by norm_num)
        omega

theorem toDecimalAux_ne_nil (fuel n : Nat) (h : n ≠ 0) (hle : n ≤ fuel) :
    toDecimalAux fuel n ≠ [] := by
  cases fuel with
  | zero => omega
  | succ fuel =>
    unfold toDecimalAux
    rw [if_neg h]
    simp

theorem parseDigits_toDecimal (n : Nat) : parseDigits (toDecimal n).data = some n := by
  by_cases h : n = 0
  · rw [h]; rfl
  · rw [toDecimal, if_neg h]
    show parseDigits (toDecimalAux n n) = some n
    have hne := toDecimalAux_ne_nil n n h le_rfl
    rw [parseDigits,
      if_neg (by rw [Bool.not_eq_true, List.isEmpty_eq_false]; exact hne),
      if_pos (toDecimalAux_all_digits n n), toDecimalAux_foldl n n le_rfl]

theorem toDecimal_head_digit (n : Nat) (h : n ≠ 0) :
    ∃ c cs, (toDecimal n).data = c :: cs ∧ c.isDigit = true := by
  rw [toDecimal, if_neg h]
  obtain ⟨c, cs, hcons⟩ := List.exists_cons_of_ne_nil (toDecimalAux_ne_nil n n h le_rfl)
  refine ⟨c, cs, hcons, ?_⟩
  have hall := toDecimalAux_all_digits n n
  rw [hcons, List.all_cons, Bool.and_eq_true] at hall
  exact hall.1

theorem atoi_itoa (n : Int) (h1 : -(2 ^ 63) ≤ n) (h2 : n ≤ 2 ^ 63 - 1) :
    atoi (itoa n) = some n := by
  by_cases hneg : n < 0
  · rw [itoa, if_pos hneg]
    have hdata : ("-" ++ toDecimal n.natAbs).data = '-' :: (toDecimal n.natAbs).data := rfl
    rw [atoi, hdata]
    dsimp only
    rw [if_pos rfl, parseDigits_toDecimal]
    dsimp only
    rw [if_pos (by omega : n.natAbs ≤ 2 ^ 63)]
    congr 1
    omega
  · rw [itoa, if_neg hneg]
    by_cases h0 : n = 0
    · rw [h0]; decide
    · have hnz : n.toNat ≠ 0 := by omega
      obtain ⟨c, cs, hcons, hdig⟩ := toDecimal_head_digit n.toNat hnz
      have hcm : c ≠ '-' := by
        intro hc; rw [hc] at hdig; exact absurd hdig (by decide)
      have hcp : c ≠ '+' := by
        intro hc; rw [hc] at hdig; exact absurd hdig (by decide)
      rw [atoi, hcons]
      dsimp only
      rw [if_neg hcm, if_neg hcp, ← hcons, parseDigits_toDecimal]
      dsimp only
      rw [if_pos (by omega : n.toNat ≤ 2 ^ 63 - 1)]
      congr 1
      omega

theorem wrap64_eq (n : Int) (h1 : -(2 ^ 63) ≤ n) (h2 : n ≤ 2 ^ 63 - 1) : wrap64 n = n := by
  unfold wrap64
  omega

theorem foldl_opts_preserve : ∀ (opts : List (TransUnit → TransUnit)),
    (∀ o ∈ opts, (∃ s, o = WithNote s) ∨ (∃ s, o = WithTarget s)) →
    ∀ t0 : TransUnit,
      (opts.foldl (fun t opt => opt t) t0).id = t0.id ∧
      (opts.foldl (fun t opt => opt t) t0).source = t0.source := by
  intro opts
  induction opts with
  | nil => intro _ t0; exact ⟨rfl, rfl⟩
  | cons o rest ih =>
    intro hopts t0
    rw [List.foldl_cons]
    have h1 := ih (fun o2 ho2 => hopts o2 (List.mem_cons_of_mem _ ho2)) (o t0)
    rcases hopts o (List.mem_cons_self o rest) with ⟨s, rfl⟩ | ⟨s, rfl⟩
    · exact ⟨h1.1, h1.2⟩
    · exact ⟨h1.1, h1.2⟩

/-- C3: amended — if the last file's body is empty or its last trans-unit
id is the decimal rendering of an integer `n` (sentinel `n = -1` for an
empty body, both captured by `lastId = some (itoa n)`), **and `n + 1`
stays within the signed 64-bit range of Go's `int`
(`-2^63 ≤ n ≤ 2^63 - 2`)**, then `AddTransUnit` with the recognized
options succeeds and appends to the last file's body a trans-unit whose
id is the decimal rendering of `n + 1` and whose source is the given
text. -/
theorem c3_addTransUnit_increments_id (d : Document) (src : String)
    (opts : List (TransUnit → TransUnit)) (n : Int)
    (hopts : ∀ o ∈ opts, (∃ s, o = WithNote s) ∨ (∃ s, o = WithTarget s))
    (hlast : d.lastId = some (itoa n))
    (hlow : -(2 ^ 63) ≤ n) (hhigh : n ≤ 2 ^ 63 - 2) :
    ∃ tu : TransUnit, tu.id = itoa (n + 1) ∧ tu.source = src ∧
      d.addTransUnit src opts =
        (none, { d with files := (updateLast
          (fun f => { f with body := { transUnits := f.body.transUnits ++ [tu] } })
          d.files) }) := by
  have hfne : d.files ≠ [] := by
    intro hnil
    rw [Document.lastId, hnil] at hlast
    exact Option.noConfusion hlast
  have hlen : ¬(d.files.length = 0) := by simpa [List.length_eq_zero] using hfne
  have hatoi : atoi (itoa n) = some n := atoi_itoa n hlow (by omega)
  have hwrap : wrap64 (n + 1) = n + 1 := wrap64_eq (n + 1) (by omega) (by omega)
  refine ⟨opts.foldl (fun t opt => opt t)
      { id := itoa (wrap64 (n + 1)), source := src, target := "", note := "" },
    ?_, ?_, ?_⟩
  · rw [(foldl_opts_preserve opts hopts _).1, hwrap]
  · exact (foldl_opts_preserve opts hopts _).2
  · unfold Document.addTransUnit
    rw [if_neg hlen, hlast]
    dsimp only
    rw [hatoi]

/-- C3 witness: on a fresh `NewDocument "de" "en"` (empty body, sentinel
`n = -1`) the first added trans-unit carries id `itoa 0 = "0"`. -/
theorem c3_addTransUnit_increments_id_witness :
    (∃ tu : TransUnit, tu.id = itoa (-1 + 1) ∧ tu.source = "Hallo Welt" ∧
      (newDocument "de" "en").addTransUnit "Hallo Welt" [] =
        (none, { newDocument "de" "en" with files := (updateLast
          (fun f => { f with body := { transUnits := f.body.transUnits ++ [tu] } })
          (newDocument "de" "en").files) })) ∧
    itoa (-1 + 1) = "0" :=
  ⟨c3_addTransUnit_increments_id (newDocument "de" "en") "Hallo Welt" [] (-1)
      (by intro o ho; cases ho) rfl (by norm_num) (by norm_num),
   rfl⟩

/-- C3 counterexample: with the last id at the largest signed 64-bit
integer, the claim as stated predicts the appended id
`"9223372036854775808"`, but the Go `int` addition wraps and the code
appends `"-9223372036854775808"`. -/
theorem c3_overflow_counterexample :
    bigDoc.lastId = some (itoa (2 ^ 63 - 1)) ∧
    (bigDoc.addTransUnit "x" []).1 = none ∧
    (bigDoc.addTransUnit "x" []).2.files.flatMap
      (fun f => f.body.transUnits.map TransUnit.id) =
      ["9223372036854775807", "-9223372036854775808"] ∧
    itoa (2 ^ 63 - 1 + 1) = "9223372036854775808" := by
  refine ⟨by decide, rfl, by decide, by decide⟩

/-- C5: `AddTransUnit` fails exactly when the document has zero files
(`NoFilesError`) or the last trans-unit of the last file has an id that
`strconv.Atoi` cannot parse (`InvalidLastIDError`); in every error case
the document is returned unchanged. -/
theorem c5_addTransUnit_error_iff (d : Document) (src : String)
    (opts : List (TransUnit → TransUnit)) :
    ((d.addTransUnit src opts).1 ≠ none ↔
      (d.files = [] ∨ ∃ f tu, d.files.getLast? = some f ∧
        f.body.transUnits.getLast? = some tu ∧ atoi tu.id = none)) ∧
    (d.files = [] → (d.addTransUnit src opts).1 = some AddError.noFilesError) ∧
    (∀ f tu, d.files.getLast? = some f → f.body.transUnits.getLast? = some tu →
      atoi tu.id = none → (d.addTransUnit src opts).1 = some AddError.lastIDNotNumberError) ∧
    ((d.addTransUnit src opts).1 ≠ none → (d.addTransUnit src opts).2 = d) := by
  by_cases hf : d.files = []
  · have hlen : d.files.length = 0 := by simp [hf]
    have hres : d.addTransUnit src opts = (some AddError.noFilesError, d) := by
      unfold Document.addTransUnit
      rw [if_pos hlen]
    refine ⟨?_, fun _ => by rw [hres], fun f tu hgl _ _ => ?_, fun _ => by rw [hres]⟩
    · rw [hres]
      constructor
      · intro _; exact Or.inl hf
      · intro _; exact Option.noConfusion
    · rw [hf] at hgl
      exact Option.noConfusion hgl
  · have hlen : ¬(d.files.length = 0) := by simpa [List.length_eq_zero] using hf
    obtain ⟨f, hgl⟩ : ∃ f, d.files.getLast? = some f := by
      cases hgl2 : d.files.getLast? with
      | none => exact absurd (List.getLast?_eq_none_iff.mp hgl2) hf
      | some f => exact ⟨f, rfl⟩
    cases htu : f.body.transUnits.getLast? with
    | none =>
      have hlast : d.lastId = some "-1" := by
        unfold Document.lastId
        rw [hgl]
        dsimp only
        rw [htu]
      have hres1 : (d.addTransUnit src opts).1 = none := by
        unfold Document.addTransUnit
        rw [if_neg hlen, hlast]
        rfl
      refine ⟨?_, fun h => absurd h hf, fun f2 tu2 hgl2 htu2 _ => ?_,
        fun h => absurd hres1 h⟩
      · rw [hres1]
        constructor
        · intro h; exact absurd rfl h
        · rintro (hnil | ⟨f2, tu2, hgl2, htu2, hat2⟩)
          · exact absurd hnil hf
          · rw [hgl] at hgl2
            injection hgl2 with he
            subst he
            rw [htu] at htu2
            exact Option.noConfusion htu2
      · rw [hgl] at hgl2
        injection hgl2 with he
        subst he
        rw [htu] at htu2
        exact Option.noConfusion htu2
    | some tu =>
      have hlast : d.lastId = some tu.id := by
        unfold Document.lastId
        rw [hgl]
        dsimp only
        rw [htu]
      cases hat : atoi tu.id with
      | none =>
        have hres : d.addTransUnit src opts = (some AddError.lastIDNotNumberError, d) := by
          unfold Document.addTransUnit
          rw [if_neg hlen, hlast]
          dsimp only
          rw [hat]
        refine ⟨?_, fun h => absurd h hf, fun f2 tu2 hgl2 htu2 hat2 => by rw [hres],
          fun _ => by rw [hres]⟩
        · rw [hres]
          constructor
          · intro _; exact Or.inr ⟨f, tu, hgl, htu, hat⟩
          · intro _; exact Option.noConfusion
      | some k =>
        have hres1 : (d.addTransUnit src opts).1 = none := by
          unfold Document.addTransUnit
          rw [if_neg hlen, hlast]
          dsimp only
          rw [hat]
        refine ⟨?_, fun h => absurd h hf, fun f2 tu2 hgl2 htu2 hat2 => ?_,
          fun h => absurd hres1 h⟩
        · rw [hres1]
          constructor
          · intro h; exact absurd rfl h
          · rintro (hnil | ⟨f2, tu2, hgl2, htu2, hat2⟩)
            · exact absurd hnil hf
            · rw [hgl] at hgl2
              injection hgl2 with he
              subst he
              rw [htu] at htu2
              injection htu2 with he2
              subst he2
              rw [hat] at hat2
              exact Option.noConfusion hat2
        · rw [hgl] at hgl2
          injection hgl2 with he
          subst he
          rw [htu] at htu2
          injection htu2 with he2
          subst he2
          rw [hat] at hat2
          exact Option.noConfusion hat2

/-- C5 witness: the zero-file document fails with `NoFilesError` leaving
the document unchanged, and a last id of `"abc"` fails with
`InvalidLastIDError`. -/
theorem c5_addTransUnit_error_iff_witness :
    (Document.addTransUnit { version := "1.2", files := [] } "x" []).1 =
      some AddError.noFilesError ∧
    (abcDoc.addTransUnit "x" []).1 = some AddError.lastIDNotNumberError :=
  ⟨(c5_addTransUnit_error_iff { version := "1.2", files := [] } "x" []).2.1 rfl,
   (c5_addTransUnit_error_iff abcDoc "x" []).2.2.1 _ _ rfl rfl (by decide)⟩

theorem prefix_of_prefix_append {α : Type} (p : List α) :
    ∀ (l r : List α), p.length ≤ l.length → p <+: (l ++ r) → p <+: l := by
  induction p with
  | nil => intro l r _ _; exact List.nil_prefix
  | cons a ps ih =>
    intro l r hlen h
    cases l with
    | nil => simp at hlen
    | cons b bs =>
      rw [List.cons_append, List.cons_prefix_cons] at h
      rw [List.cons_prefix_cons]
      exact ⟨h.1, ih bs r (by simpa using hlen) h.2⟩

theorem not_unknown_prefix_of (name : String) (msg : String)
    (hlen : "Unknown".data.length ≤ name.data.length)
    (hname : ¬ "Unknown".data <+: name.data) :
    ¬ "Unknown".data <+: (name ++ (": " ++ msg)).data := by
  intro hpre
  rw [String.data_append] at hpre
  exact hname (prefix_of_prefix_append _ _ _ hlen hpre)

/-- C7: rendering a `ValidationError` carrying any of the ten defined
codes yields the code's name followed by `": "` and the message — never
the `"Unknown"` placeholder. -/
theorem c7_error_rendering :
    ∀ p ∈ [(UnsupportedVersion, "UnsupportedVersion"),
           (MissingOriginalAttribute, "MissingOriginalAttribute"),
           (MissingSourceLanguage, "MissingSourceLanguage"),
           (MissingTargetLanguage, "MissingTargetLanguage"),
           (UnsupportedDatatype, "UnsupportedDatatype"),
           (InconsistentSourceLanguage, "InconsistentSourceLanguage"),
           (InconsistentTargetLanguage, "InconsistentTargetLanguage"),
           (MissingTransUnitID, "MissingTransUnitID"),
           (MissingTransUnitSource, "MissingTransUnitSource"),
           (MissingTransUnitTarget, "MissingTransUnitTarget")],
    ∀ msg : String,
      ValidationError.Error { code := p.1, message := msg } = p.2 ++ (": " ++ msg) ∧
      ¬ "Unknown".data <+: (ValidationError.Error { code := p.1, message := msg }).data := by
  intro p hp msg
  simp only [List.mem_cons, List.not_mem_nil, or_false] at hp
  rcases hp with rfl | rfl | rfl | rfl | rfl | rfl | rfl | rfl | rfl | rfl
  · exact ⟨rfl, not_unknown_prefix_of "UnsupportedVersion" msg (by decide) (by decide)⟩
  · exact ⟨rfl, not_unknown_prefix_of "MissingOriginalAttribute" msg (by decide) (by decide)⟩
  · exact ⟨rfl, not_unknown_prefix_of "MissingSourceLanguage" msg (by decide) (by decide)⟩
  · exact ⟨rfl, not_unknown_prefix_of "MissingTargetLanguage" msg (by decide) (by decide)⟩
  · exact ⟨rfl, not_unknown_prefix_of "UnsupportedDatatype" msg (by decide) (by decide)⟩
  · exact ⟨rfl, not_unknown_prefix_of "InconsistentSourceLanguage" msg (by decide) (by decide)⟩
  · exact ⟨rfl, not_unknown_prefix_of "InconsistentTargetLanguage" msg (by decide) (by decide)⟩
  · exact ⟨rfl, not_unknown_prefix_of "MissingTransUnitID" msg (by decide) (by decide)⟩
  · exact ⟨rfl, not_unknown_prefix_of "MissingTransUnitSource" msg (by decide) (by decide)⟩
  · exact ⟨rfl, not_unknown_prefix_of "MissingTransUnitTarget" msg (by decide) (by decide)⟩

/-- C7 witness: the `UnsupportedVersion` code renders with its own name
and without the placeholder. -/
theorem c7_error_rendering_witness :
    ValidationError.Error { code := UnsupportedVersion, message := "m" } =
      "UnsupportedVersion" ++ (": " ++ "m") ∧
    ¬ "Unknown".data <+:
      (ValidationError.Error { code := UnsupportedVersion, message := "m" }).data :=
  c7_error_rendering (UnsupportedVersion, "UnsupportedVersion")
    (List.mem_cons_self _ _) "m"

theorem decodeTransUnit_encode (tu : TransUnit) :
    decodeTransUnit [("id", tu.id)]
      [Xml.elem "source" [] [Xml.text tu.source],
       Xml.elem "target" [] [Xml.text tu.target],
       Xml.elem "note" [] [Xml.text tu.note]] = tu := rfl

theorem decodeBody_fold_encode (tus : List TransUnit) :
    ∀ acc : List TransUnit,
      List.foldl bodyChildStep acc (tus.map encodeTransUnit) = acc ++ tus := by
  induction tus with
  | nil => intro acc; simp
  | cons tu rest ih =>
    intro acc
    rw [List.map_cons, List.foldl_cons]
    have hstep : bodyChildStep acc (encodeTransUnit tu) = acc ++ [tu] := rfl
    rw [hstep, ih (acc ++ [tu]), List.append_assoc, List.singleton_append]

theorem decodeFile_encode (f : File) :
    decodeFile
      [("original", f.original), ("source-language", f.sourceLanguage),
       ("datatype", f.datatype), ("target-language", f.targetLanguage)]
      [encodeHeader f.header, encodeBody f.body] = f := by
  have h1 : decodeFile
      [("original", f.original), ("source-language", f.sourceLanguage),
       ("datatype", f.datatype), ("target-language", f.targetLanguage)]
      [encodeHeader f.header, encodeBody f.body] =
      { original := f.original, sourceLanguage := f.sourceLanguage,
        datatype := f.datatype, targetLanguage := f.targetLanguage,
        header := f.header,
        body := { transUnits :=
          List.foldl bodyChildStep [] (f.body.transUnits.map encodeTransUnit) } } := rfl
  rw [h1, decodeBody_fold_encode f.body.transUnits []]
  rfl

theorem decodeDocument_fold_encode (fs : List File) :
    ∀ d0 : Document,
      List.foldl documentChildStep d0 (fs.map encodeFile) =
        { d0 with files := d0.files ++ fs } := by
  induction fs with
  | nil => intro d0; simp
  | cons f rest ih =>
    intro d0
    rw [List.map_cons, List.foldl_cons]
    have hstep : documentChildStep d0 (encodeFile f) =
        { d0 with files := d0.files ++ [f] } := by
      unfold documentChildStep encodeFile
      dsimp only
      rw [if_pos rfl, decodeFile_encode f]
    rw [hstep, ih { version := d0.version, files := d0.files ++ [f] },
      List.append_assoc, List.singleton_append]

theorem decodeDocument_encodeXml (d : Document) :
    decodeDocument d.encodeXml = some d := by
  have h1 : decodeDocument d.encodeXml =
      some (List.foldl documentChildStep { version := d.version, files := [] }
        (d.files.map encodeFile)) := rfl
  rw [h1, decodeDocument_fold_encode d.files { version := d.version, files := [] }]
  rfl

/-- C2: every XML tree that decodes successfully re-decodes to the same
document after an encode: `Decode (Encode (Decode x)) = Decode x`.  The
wrapper attributes injected by encode (`xmlns`, `xmlns:xsi`,
`xsi:schemaLocation`) are not read back by decode and introduce no
difference; the XML declaration prepended by `ToFile` lives below the
tree level and never reaches the decoder. -/
theorem c2_decode_encode_decode (x : Xml) (d : Document)
    (h : decodeDocument x = some d) :
    decodeDocument (Document.encodeXml d) = some d :=
  decodeDocument_encodeXml d

/-- C2 witness: a concrete root element round-trips. -/
theorem c2_decode_encode_decode_witness :
    decodeDocument (Document.encodeXml { version := "1.2", files := [] }) =
      some { version := "1.2", files := [] } :=
  c2_decode_encode_decode (Xml.elem "xliff" [("version", "1.2")] [])
    { version := "1.2", files := [] } rfl

end Proofs

end Xliff
